import Mathlib

/-!
Verification of the `metatable` row-transformation library
(`src/metatable/metatable.py`).

The embedding follows the source closely:

* `Value` is the domain of cell values that occur in rows (Python values:
  `None`, integers, strings, booleans, and the `drop` class object when it
  leaks through evaluation as a bare value).
* `Expr` is the domain of symbolic expressions handed to the engine:
  column references (`column(p)`), the row-index sentinel (the `row` class),
  self-evaluating leaves (a `symbolism.symbol` with zero parameters),
  operator nodes (a `symbolism.symbol` with parameters and a reconstruction
  function), the `drop` class object, and bare literals.
* `metatable._eval` becomes `eval`, `metatable._upd` becomes `upd`
  (split into `workingBuffer` plus filter/drop phases exactly as in the
  source), and `metatable.update_filter` / `metatable.update` become
  `update_filter` / `update`.

Fallible Python behaviour (an `IndexError` from a negative out-of-range
index, the `ValueError` of `max()` on an empty update specification) is
modelled with `Except String`.
-/

/-- Cell values: Python `None` (the absent marker), ints, strings, booleans,
and the `drop` class object itself (which Python's `_eval` can return as a
bare value, since a class is neither a `column`, nor `row`, nor a
`symbolism.symbol` instance). -/
inductive Value where
  | none
  | int (n : Int)
  | str (s : String)
  | bool (b : Bool)
  | dropCls
  deriving DecidableEq, Repr

/-- Python truthiness of a `Value`, as used by
`if filter_ is None or metatable._eval(row__, index, filter_)`.
A class object such as `drop` is truthy. -/
def truthy : Value → Bool
  | Value.none => false
  | Value.int n => decide (n ≠ 0)
  | Value.str s => decide (s ≠ "")
  | Value.bool b => b
  | Value.dropCls => true

/-- Symbolic expressions consumed by the evaluator `metatable._eval`:
`col p` is `column(p)` (Python allows any integer position, hence `Int`);
`rowSym` is the `row` class sentinel; `leaf v` is a `symbolism.symbol`
with zero parameters (self-evaluating, `e.evaluate()` returns `v`);
`node f ps` is an operator node with reconstruction function `f` applied
to the recursively evaluated parameters (`e.instance(*...)`);
`dropSym` is the `drop` class object; `lit v` is a bare literal. -/
inductive Expr where
  | col (p : Int)
  | rowSym
  | leaf (v : Value)
  | node (f : List Value → Value) (ps : List Expr)
  | dropSym
  | lit (v : Value)

/-- Recognises the `drop` class object placed directly as an
update-specification value (Python's `upd is drop` identity test). -/
def isDropMarker : Expr → Bool
  | Expr.dropSym => true
  | _ => false

/-- Error message for Python's `IndexError` on list indexing/assignment. -/
def indexErrorMsg : String := "IndexError: list index out of range"

mutual

/-- Embedding of `metatable._eval(r, i, e)`:

* a `column` resolves its position `p`; Python returns
  `r[index] if index < len(r) else None`, where `r[index]` for a negative
  `index` wraps around (`r[len(r)+index]`) and raises `IndexError` when
  `index < -len(r)`;
* the `row` sentinel returns the row index `i`;
* a `symbolism.symbol` with zero parameters self-evaluates, otherwise each
  parameter is evaluated recursively and the reconstruction function is
  applied to the results;
* anything else (a bare literal, including the `drop` class object) is
  returned unchanged. -/
def eval (r : List Value) (i : Nat) : Expr → Except String Value
  | Expr.col p =>
    if p < (r.length : Int) then
      if 0 ≤ p then Except.ok (r.getD p.toNat Value.none)
      else if 0 ≤ (r.length : Int) + p then
        Except.ok (r.getD ((r.length : Int) + p).toNat Value.none)
      else Except.error indexErrorMsg
    else Except.ok Value.none
  | Expr.rowSym => Except.ok (Value.int i)
  | Expr.leaf v => Except.ok v
  | Expr.node f ps =>
    match evalList r i ps with
    | Except.error msg => Except.error msg
    | Except.ok vs => Except.ok (f vs)
  | Expr.dropSym => Except.ok Value.dropCls
  | Expr.lit v => Except.ok v

/-- Evaluation of the parameter list of an operator node
(`[metatable._eval(r, i, p) for p in e.parameters]`), propagating the
first failure. -/
def evalList (r : List Value) (i : Nat) : List Expr → Except String (List Value)
  | [] => Except.ok []
  | e :: es =>
    match eval r i e with
    | Except.error msg => Except.error msg
    | Except.ok v =>
      match evalList r i es with
      | Except.error msg => Except.error msg
      | Except.ok vs => Except.ok (v :: vs)

end

/-- Effect of the growth loop `while col > len(row_) - 1: row_.append(None)`
for a single position `col = c`: pad the row with the absent marker until its
length reaches at least `c + 1`. -/
def growTo (row_ : List Value) (c : Nat) : List Value :=
  row_ ++ List.replicate (c + 1 - row_.length) Value.none

/-- Effect of `for col in update: while col > len(row_) - 1: row_.append(None)`:
grow the row for every column position named in the update specification,
in specification order. -/
def grow (row_ : List Value) : List Nat → List Value
  | [] => row_
  | c :: cs => grow (growTo row_ c) cs

/-- Strict-mode pruning
`row__ = [v for (c, v) in enumerate(row__) if c <= column_max]`. -/
def pruneLe (m : Nat) (xs : List Value) : List Value :=
  (xs.enum.filter (fun cv => decide (cv.1 ≤ m))).map Prod.snd

/-- Deferred column removal
`row__ = [v for (c, v) in enumerate(row__) if c not in drops]`. -/
def removeDrops (drops : List Nat) (xs : List Value) : List Value :=
  (xs.enum.filter (fun cv => !(drops.contains cv.1))).map Prod.snd

/-- The update loop of `metatable._upd`
(`for (col_, upd) in update.items(): ...`): for each pair, a `drop` value is
recorded in `drops`; any other value is evaluated against `ro` — the
original (grown, un-updated) row — and assigned into the working buffer at
its position.  A Python list assignment `row__[col_] = v` with `col_`
outside the buffer raises `IndexError`. -/
def applyUpdates (ro : List Value) (i : Nat) :
    List (Nat × Expr) → List Value → List Nat → Except String (List Value × List Nat)
  | [], row__, drops => Except.ok (row__, drops)
  | (c, e) :: rest, row__, drops =>
    if isDropMarker e then applyUpdates ro i rest row__ (drops ++ [c])
    else
      match eval ro i e with
      | Except.error msg => Except.error msg
      | Except.ok v =>
        if c < row__.length then applyUpdates ro i rest (row__.set c v) drops
        else Except.error indexErrorMsg

/-- The first half of `metatable._upd`: growth, working copy, optional
strict pruning, and the update loop.  Returns the post-update working
buffer together with the recorded drop positions. -/
def workingBuffer (update : List (Nat × Expr)) (column_max : Option Nat)
    (index : Nat) (row_ : List Value) : Except String (List Value × List Nat) :=
  let row_g := grow row_ (update.map Prod.fst)
  let row__ :=
    match column_max with
    | some m => pruneLe m row_g
    | none => row_g
  applyUpdates row_g index update row__ []

/-- Embedding of `metatable._upd`: growth, working copy, strict pruning,
update loop, then
`if filter_ is None or metatable._eval(row__, index, filter_)` — the filter
is evaluated against the post-update working buffer — and finally the
recorded columns are dropped from the surviving row.  Produces one row when
the row survives and zero rows when it is filtered out. -/
def upd (update : List (Nat × Expr)) (filter_ : Option Expr)
    (column_max : Option Nat) (index : Nat) (row_ : List Value) :
    Except String (List (List Value)) :=
  match workingBuffer update column_max index row_ with
  | Except.error msg => Except.error msg
  | Except.ok (row__, drops) =>
    match filter_ with
    | none => Except.ok [removeDrops drops row__]
    | some fe =>
      match eval row__ index fe with
      | Except.error msg => Except.error msg
      | Except.ok v =>
        if truthy v then Except.ok [removeDrops drops row__] else Except.ok []

/-- Embedding of the `metatable` class: the current row sequence, the
instance name (metadata only), and the header flag, in constructor order. -/
structure Metatable where
  iterable : List (List Value)
  name : Option String
  header : Bool

/-- Python's `max(update.keys())`: `none` models the `ValueError` raised on
an empty sequence; dict keys are traversed in insertion order. -/
def maxKey : List (Nat × Expr) → Option Nat
  | [] => none
  | (c, _) :: rest => some (rest.foldl (fun m ce => Nat.max m ce.1) c)

/-- Error message for `max()` applied to an empty update specification. -/
def maxEmptyMsg : String := "ValueError: max() arg is an empty sequence"

/-- Header-row processing in `metatable.update_filter` (lines 141-158):
column growth over the update positions, strict pruning when requested,
and removal of the dropped columns
(`drops = [col_ for (col_, upd) in update.items() if upd is drop]`) —
but no value updates and no filter evaluation. -/
def headerTransform (update : List (Nat × Expr)) (column_max : Nat)
    (strict : Bool) (row_ : List Value) : List Value :=
  let row_g := grow row_ (update.map Prod.fst)
  let row_s := if strict then pruneLe column_max row_g else row_g
  let drops := (update.filter (fun ce => isDropMarker ce.2)).map Prod.fst
  removeDrops drops row_s

/-- The data-row pass of `metatable.update_filter`: each remaining row is
paired with its zero-based index (`enumerate(rows_in)`), passed through
`metatable._upd`, and the zero-or-one-row results are concatenated in
input order. -/
def updRowsFrom (update : List (Nat × Expr)) (filter_ : Option Expr)
    (column_max : Option Nat) : Nat → List (List Value) →
    Except String (List (List Value))
  | _, [] => Except.ok []
  | i, r :: rs =>
    match upd update filter_ column_max i r with
    | Except.error msg => Except.error msg
    | Except.ok out =>
      match updRowsFrom update filter_ column_max (i + 1) rs with
      | Except.error msg => Except.error msg
      | Except.ok rest => Except.ok (out ++ rest)

/-- Data-row pass starting at index `0`. -/
def updRows (update : List (Nat × Expr)) (filter_ : Option Expr)
    (column_max : Option Nat) (rows : List (List Value)) :
    Except String (List (List Value)) :=
  updRowsFrom update filter_ column_max 0 rows

/-- Embedding of `metatable.update_filter`: compute
`column_max = max(update.keys())` (failing on an empty specification);
when the table has a header and no replacement header is supplied, pass the
first row (if any) through `headerTransform` and emit it first; when the
table has a header and a replacement is supplied, skip the original first
row and emit the replacement verbatim; then run every remaining row through
`metatable._upd` with `column_max if strict else None`, concatenating the
results after the header.  Returns the new row sequence (which also becomes
the table's new content). -/
def update_filter (t : Metatable) (update : List (Nat × Expr))
    (filter_ : Option Expr) (header : Option (List Value)) (strict : Bool) :
    Except String (List (List Value)) :=
  match maxKey update with
  | none => Except.error maxEmptyMsg
  | some column_max =>
    let headerOutAndRest : List (List Value) × List (List Value) :=
      match t.header, header, t.iterable with
      | true, none, r0 :: rest => ([headerTransform update column_max strict r0], rest)
      | true, none, [] => ([], [])
      | true, some h, rows => ([h], rows.drop 1)
      | false, _, rows => ([], rows)
    match updRows update filter_ (if strict then some column_max else none)
        headerOutAndRest.2 with
    | Except.error msg => Except.error msg
    | Except.ok outs => Except.ok (headerOutAndRest.1 ++ outs)

/-- Embedding of `metatable.update`, which delegates to `update_filter`
with no filter expression. -/
def update (t : Metatable) (u : List (Nat × Expr))
    (header : Option (List Value)) (strict : Bool) :
    Except String (List (List Value)) :=
  update_filter t u none header strict

/-- Reconstruction function for `symbolism`'s `>` on integers. -/
def gtFn : List Value → Value
  | [Value.int a, Value.int b] => Value.bool (decide (b < a))
  | _ => Value.none

/-- Reconstruction function for `symbolism`'s `<` on integers. -/
def ltFn : List Value → Value
  | [Value.int a, Value.int b] => Value.bool (decide (a < b))
  | _ => Value.none

-- Doctest: `metatable([['a', 0], ['b', 1], ['c', 2]])` with update
-- `{0: column(1)}` and filter `column(1) > symbolism.symbol(0)`
-- yields `[[1, 1], [2, 2]]`.
example :
    update_filter
      ⟨[[Value.str "a", Value.int 0], [Value.str "b", Value.int 1],
        [Value.str "c", Value.int 2]], none, false⟩
      [(0, Expr.col 1)]
      (some (Expr.node gtFn [Expr.col 1, Expr.leaf (Value.int 0)]))
      none false =
    Except.ok [[Value.int 1, Value.int 1], [Value.int 2, Value.int 2]] := rfl

-- Doctest: `metatable([['a'], ['b'], ['c']])` with update `{3: row}` and
-- filter `column(3) < 2` yields `[['a', None, None, 0], ['b', None, None, 1]]`.
example :
    update_filter
      ⟨[[Value.str "a"], [Value.str "b"], [Value.str "c"]], none, false⟩
      [(3, Expr.rowSym)]
      (some (Expr.node ltFn [Expr.col 3, Expr.leaf (Value.int 2)]))
      none false =
    Except.ok
      [[Value.str "a", Value.none, Value.none, Value.int 0],
       [Value.str "b", Value.none, Value.none, Value.int 1]] := rfl

-- Doctest: header table `[['char', 'num'], ['a', 0], ['b', 1]]` with update
-- `{1: column(0)}` yields `[['char', 'num'], ['a', 'a'], ['b', 'b']]`.
example :
    update
      ⟨[[Value.str "char", Value.str "num"], [Value.str "a", Value.int 0],
        [Value.str "b", Value.int 1]], none, true⟩
      [(1, Expr.col 0)] none false =
    Except.ok
      [[Value.str "char", Value.str "num"], [Value.str "a", Value.str "a"],
       [Value.str "b", Value.str "b"]] := rfl

-- Doctest: dropping column 0 twice on the previous result:
-- `[['num'], ['a'], ['b']]` and then `[[], [], []]`.
example :
    update
      ⟨[[Value.str "char", Value.str "num"], [Value.str "a", Value.str "a"],
        [Value.str "b", Value.str "b"]], none, true⟩
      [(0, Expr.dropSym)] none false =
    Except.ok [[Value.str "num"], [Value.str "a"], [Value.str "b"]] := rfl
example :
    update
      ⟨[[Value.str "num"], [Value.str "a"], [Value.str "b"]], none, true⟩
      [(0, Expr.dropSym)] none false =
    Except.ok [[], [], []] := rfl

-- Doctest: header table `[['c', 'n', 'b'], ['a', 0, True], ['b', 1, True]]`
-- with sequence update `[column(1), column(0)]`, `strict=True`, replacement
-- header `['n', 'c']` yields `[['n', 'c'], [0, 'a'], [1, 'b']]`.
example :
    update
      ⟨[[Value.str "c", Value.str "n", Value.str "b"],
        [Value.str "a", Value.int 0, Value.bool true],
        [Value.str "b", Value.int 1, Value.bool true]], none, true⟩
      [(0, Expr.col 1), (1, Expr.col 0)]
      (some [Value.str "n", Value.str "c"]) true =
    Except.ok
      [[Value.str "n", Value.str "c"], [Value.int 0, Value.str "a"],
       [Value.int 1, Value.str "b"]] := rfl

-- Doctest: `{2: 'x'}` on header table `[['c'], ['a'], ['b']]` yields
-- `[['c', None, None], ['a', None, 'x'], ['b', None, 'x']]`.
example :
    update
      ⟨[[Value.str "c"], [Value.str "a"], [Value.str "b"]], none, true⟩
      [(2, Expr.lit (Value.str "x"))] none false =
    Except.ok
      [[Value.str "c", Value.none, Value.none],
       [Value.str "a", Value.none, Value.str "x"],
       [Value.str "b", Value.none, Value.str "x"]] := rfl

/-- C7: for every row and every column reference with a non-negative
position, evaluation returns the value at that position when the position is
within the row's current length and the absent marker (`Value.none`)
otherwise; in both cases it succeeds, so no out-of-range failure is ever
raised for a non-negative position. -/
theorem C7_col_nonneg_total (r : List Value) (i : Nat) (p : Nat) :
    eval r i (Expr.col (p : Int)) =
      Except.ok (if p < r.length then r.getD p Value.none else Value.none) := by
  by_cases h : p < r.length
  · simp [eval, h]
  · simp [eval, h]

/-- C10: for a column reference with a negative position `p`, the evaluator
never takes the absent-marker branch: when `-len(r) ≤ p ≤ -1` it returns the
element at position `len(r) + p` (Python wraparound indexing), and when
`p < -len(r)` evaluation fails with an `IndexError`. -/
theorem C10_col_negative (r : List Value) (i : Nat) (p : Int) (hneg : p < 0) :
    (-(r.length : Int) ≤ p →
      eval r i (Expr.col p) =
        Except.ok (r.getD ((r.length : Int) + p).toNat Value.none)) ∧
    (p < -(r.length : Int) →
      eval r i (Expr.col p) = Except.error indexErrorMsg) := by
  constructor
  · intro hge
    have h1 : p < (r.length : Int) := by omega
    have h2 : ¬ (0 ≤ p) := by omega
    have h3 : 0 ≤ (r.length : Int) + p := by omega
    simp [eval, h1, h2, h3]
  · intro hlt
    have h1 : p < (r.length : Int) := by omega
    have h2 : ¬ (0 ≤ p) := by omega
    have h3 : ¬ (0 ≤ (r.length : Int) + p) := by omega
    simp [eval, h1, h2, h3]

/-- Witness for C10 at `r = [5, 6]`: position `-1` resolves to the last
element `6`, and position `-3` fails with an `IndexError`. -/
theorem C10_col_negative_witness :
    eval [Value.int 5, Value.int 6] 0 (Expr.col (-1)) = Except.ok (Value.int 6) ∧
    eval [Value.int 5, Value.int 6] 0 (Expr.col (-3)) = Except.error indexErrorMsg := by
  constructor
  · exact ((C10_col_negative [Value.int 5, Value.int 6] 0 (-1) (by norm_num)).1
      (by norm_num)).trans rfl
  · exact (C10_col_negative [Value.int 5, Value.int 6] 0 (-3) (by norm_num)).2
      (by norm_num)

/-- C3 counterexample: evaluating an expression tree with the drop-marker
nested inside it does **not** signal an invalid-argument condition — the
Evaluator resolves the nested drop-marker to the `drop` class object itself
(it falls through to the bare-literal branch `return e` of
`metatable._eval`) and operator evaluation proceeds normally. -/
theorem C3_counterexample :
    eval [] 0 (Expr.node (fun _ => Value.none) [Expr.dropSym]) =
      Except.ok Value.none ∧
    eval [] 0 Expr.dropSym = Except.ok Value.dropCls :=
  ⟨rfl, rfl⟩

/-- C3 amended: evaluation of a drop-marker nested inside an expression tree
does not fail; the Evaluator resolves the drop-marker to the `drop` class
object itself (like any bare literal), and an operator node containing it
applies its reconstruction function to that value. -/
theorem C3_nested_drop_resolves (r : List Value) (i : Nat)
    (f : List Value → Value) :
    eval r i Expr.dropSym = Except.ok Value.dropCls ∧
    eval r i (Expr.node f [Expr.dropSym]) = Except.ok (f [Value.dropCls]) :=
  ⟨rfl, rfl⟩

/-- C8: calling `update_filter` or `update` with an update specification
containing no entries fails with the `ValueError` raised by
`max(update.keys())` on an empty sequence, instead of producing a result. -/
theorem C8_empty_update_spec_errors (t : Metatable) (fe : Option Expr)
    (h : Option (List Value)) (strict : Bool) :
    update_filter t [] fe h strict = Except.error maxEmptyMsg ∧
    update t [] h strict = Except.error maxEmptyMsg :=
  ⟨rfl, rfl⟩

/-- C1: for a row transformation with a filter expression present, the
filter is evaluated against the working buffer (`workingBuffer`, the
post-update values at their pre-drop positions, minus any strict-pruning
truncation) together with the row index: a falsy result produces zero
output rows, a truthy result produces exactly one output row, with the
recorded drop positions removed afterwards.  Since the buffer holds the
post-update values, a filter referencing a column written by the same
update observes the new value, not the pre-image. -/
theorem C1_filter_sees_post_update (u : List (Nat × Expr)) (fe : Expr)
    (cmax : Option Nat) (i : Nat) (r : List Value)
    (row__ : List Value) (drops : List Nat) (v : Value)
    (hwb : workingBuffer u cmax i r = Except.ok (row__, drops))
    (hv : eval row__ i fe = Except.ok v) :
    upd u (some fe) cmax i r =
      if truthy v then Except.ok [removeDrops drops row__] else Except.ok [] := by
  unfold upd
  rw [hwb]
  simp [hv]

/-- Witness for C1: the row `[0]` is updated at position `0` to the literal
`5`; the filter `column(0)` then sees the **new** value `5` (truthy), not
the falsy pre-image `0`, so the row survives. -/
theorem C1_filter_sees_post_update_witness :
    upd [(0, Expr.lit (Value.int 5))] (some (Expr.col 0)) none 0 [Value.int 0] =
      Except.ok [[Value.int 5]] :=
  (C1_filter_sees_post_update [(0, Expr.lit (Value.int 5))] (Expr.col 0) none 0
    [Value.int 0] [Value.int 5] [] (Value.int 5) rfl rfl).trans rfl

/-- The strict-pruning comprehension keeps exactly the positions at or
below `m`, i.e. the first `m + 1` elements. -/
theorem enumFrom_filter_le (m : Nat) :
    ∀ (xs : List Value) (n : Nat),
      ((List.enumFrom n xs).filter (fun cv => decide (cv.1 ≤ m))).map Prod.snd =
        xs.take (m + 1 - n)
  | [], _ => by simp
  | x :: xs, n => by
    by_cases h : n ≤ m
    · have h1 : m + 1 - n = (m - n) + 1 := by omega
      have h2 : m + 1 - (n + 1) = m - n := by omega
      have ih := enumFrom_filter_le m xs (n + 1)
      simp only [List.enumFrom, List.filter_cons, decide_eq_true_eq, h, if_true,
        List.map_cons, h1, List.take_succ_cons, h2] at ih ⊢
      rw [ih]
    · have h1 : m + 1 - n = 0 := by omega
      have h2 : m + 1 - (n + 1) = 0 := by omega
      have ih := enumFrom_filter_le m xs (n + 1)
      simp only [List.enumFrom, List.filter_cons, decide_eq_true_eq, h, if_false,
        h1, List.take_zero, h2] at ih ⊢
      exact ih

/-- Pruning with `pruneLe m` is truncation to the first `m + 1` positions. -/
theorem pruneLe_eq_take (m : Nat) (xs : List Value) :
    pruneLe m xs = xs.take (m + 1) := by
  have h := enumFrom_filter_le m xs 0
  simpa [pruneLe, List.enum] using h

/-- C4 counterexample: in strict mode with update specification
`{0: 'x', 2: 'y'}` (referenced positions `[0, 2]`) applied to the row
`['a', 'b', 'c', 'd']`, the result is `['x', 'b', 'y']`: position `1` is
**not** referenced by the update specification, yet its value `'b'` is
retained, refuting "only the column positions referenced by the update
specification are retained". -/
theorem C4_counterexample :
    update ⟨[[Value.str "a", Value.str "b", Value.str "c", Value.str "d"]],
        none, false⟩
      [(0, Expr.lit (Value.str "x")), (2, Expr.lit (Value.str "y"))] none true =
      Except.ok [[Value.str "x", Value.str "b", Value.str "y"]] ∧
    [(0, Expr.lit (Value.str "x")), (2, Expr.lit (Value.str "y"))].map Prod.fst
      = [0, 2] :=
  ⟨rfl, rfl⟩

/-- C4 amended: in strict mode (a maximum retained column position `m` is
supplied), the transformation truncates the working buffer to retain only
the positions at or below `m` — the first `m + 1` positions of the grown
row — discarding every position above that maximum, before updates are
applied.  (`m` is the maximum position referenced by the update
specification when called from `update_filter`.) -/
theorem C4_strict_prunes_above_max (u : List (Nat × Expr)) (i : Nat)
    (m : Nat) (r : List Value) :
    workingBuffer u (some m) i r =
      applyUpdates (grow r (u.map Prod.fst)) i u
        ((grow r (u.map Prod.fst)).take (m + 1)) [] := by
  simp only [workingBuffer]
  rw [pruneLe_eq_take]

/-- C6: a table constructed with the header flag set but an empty row
sequence does not fail: with no replacement header the result is empty —
no header row is emitted — and with a replacement header only the
caller-supplied replacement is emitted (no header row derived from the
table appears). -/
theorem C6_header_empty_table (t : Metatable) (u : List (Nat × Expr))
    (fe : Option Expr) (strict : Bool) (h : List Value) (m : Nat)
    (ht : t.header = true) (hit : t.iterable = [])
    (hm : maxKey u = some m) :
    update_filter t u fe none strict = Except.ok [] ∧
    update_filter t u fe (some h) strict = Except.ok [h] := by
  obtain ⟨it, nm, hd⟩ := t
  simp only at ht hit
  subst ht hit
  constructor <;> simp [update_filter, hm, updRows, updRowsFrom]

/-- Witness for C6 at the empty header-flagged table. -/
theorem C6_header_empty_table_witness :
    update_filter ⟨[], none, true⟩ [(0, Expr.col 0)] none none false =
      Except.ok [] ∧
    update_filter ⟨[], none, true⟩ [(0, Expr.col 0)] none
        (some [Value.str "x"]) false =
      Except.ok [[Value.str "x"]] :=
  C6_header_empty_table ⟨[], none, true⟩ [(0, Expr.col 0)] none false
    [Value.str "x"] 0 rfl rfl rfl

/-- C5: for a table constructed with a header and a nonempty row sequence,
`update_filter` with no replacement header passes the first row through
`headerTransform` (column growth and drop removal over the same update
positions as data rows, plus strict pruning, but no value updates and no
filter evaluation) and emits it first, unconditionally — it is never
dropped by the filter; with a replacement header the original first row is
skipped entirely and the replacement is emitted first verbatim.  In both
cases the remaining rows go through the per-data-row path and are appended
after the header. -/
theorem C5_header_handling (t : Metatable) (u : List (Nat × Expr))
    (fe : Option Expr) (strict : Bool) (h r0 : List Value)
    (rest : List (List Value)) (m : Nat)
    (ht : t.header = true) (hit : t.iterable = r0 :: rest)
    (hm : maxKey u = some m) :
    update_filter t u fe none strict =
      (updRows u fe (if strict then some m else none) rest).map
        (fun outs => headerTransform u m strict r0 :: outs) ∧
    update_filter t u fe (some h) strict =
      (updRows u fe (if strict then some m else none) rest).map
        (fun outs => h :: outs) := by
  obtain ⟨it, nm, hd⟩ := t
  simp only at ht hit
  subst ht hit
  constructor <;>
  · simp only [update_filter, hm]
    cases hres : updRows u fe (if strict then some m else none) rest <;>
      simp [Except.map, hres]

/-- Witness for C5, following the doctest: on the header table
`[['char', 'num'], ['a', 0], ['b', 1]]` with update `{1: column(0)}`,
the header row survives untouched and is emitted first; with the
replacement header `['x']` the original header is skipped and the
replacement emitted verbatim. -/
theorem C5_header_handling_witness :
    update_filter
      ⟨[[Value.str "char", Value.str "num"], [Value.str "a", Value.int 0],
        [Value.str "b", Value.int 1]], none, true⟩
      [(1, Expr.col 0)] none none false =
      Except.ok
        [[Value.str "char", Value.str "num"], [Value.str "a", Value.str "a"],
         [Value.str "b", Value.str "b"]] ∧
    update_filter
      ⟨[[Value.str "char", Value.str "num"], [Value.str "a", Value.int 0],
        [Value.str "b", Value.int 1]], none, true⟩
      [(1, Expr.col 0)] none (some [Value.str "x"]) false =
      Except.ok
        [[Value.str "x"], [Value.str "a", Value.str "a"],
         [Value.str "b", Value.str "b"]] := by
  have h := C5_header_handling
    ⟨[[Value.str "char", Value.str "num"], [Value.str "a", Value.int 0],
      [Value.str "b", Value.int 1]], none, true⟩
    [(1, Expr.col 0)] none false [Value.str "x"]
    [Value.str "char", Value.str "num"]
    [[Value.str "a", Value.int 0], [Value.str "b", Value.int 1]] 1
    rfl rfl rfl
  exact ⟨h.1.trans rfl, h.2.trans rfl⟩

/-- The update loop leaves positions not named in the (remaining) update
entries untouched. -/
theorem applyUpdates_getElem?_of_not_mem (ro : List Value) (i : Nat) (c : Nat)
    (b' : List Value) (ds' : List Nat) (us : List (Nat × Expr)) :
    ∀ (b : List Value) (ds : List Nat),
      applyUpdates ro i us b ds = Except.ok (b', ds') →
      c ∉ us.map Prod.fst → b'[c]? = b[c]? := by
  induction us with
  | nil =>
    intro b ds h _
    simp only [applyUpdates, Except.ok.injEq, Prod.mk.injEq] at h
    rw [← h.1]
  | cons ce rest ih =>
    obtain ⟨c0, e0⟩ := ce
    intro b ds h hnm
    have hne : c0 ≠ c := fun hc => hnm (by simp [hc])
    have hnm' : c ∉ rest.map Prod.fst := fun hc => hnm (by simp [hc])
    simp only [applyUpdates] at h
    split at h
    · exact ih _ _ h hnm'
    · split at h
      · simp at h
      · split at h
        · rw [ih _ _ h hnm']
          exact List.getElem?_set_ne hne
        · simp at h

/-- The core of C2: when the keys of the update specification are distinct,
a non-drop entry `(c, e)` of the update loop leaves the value of `e` —
evaluated against `ro`, the original grown row — at position `c` of the
final working buffer, no matter where the entry sits in the
specification. -/
theorem applyUpdates_getElem?_of_mem (ro : List Value) (i : Nat) (c : Nat)
    (e : Expr) (v : Value) (b' : List Value) (ds' : List Nat)
    (us : List (Nat × Expr)) :
    ∀ (b : List Value) (ds : List Nat),
      (us.map Prod.fst).Nodup → (c, e) ∈ us → isDropMarker e = false →
      applyUpdates ro i us b ds = Except.ok (b', ds') →
      eval ro i e = Except.ok v → b'[c]? = some v := by
  induction us with
  | nil =>
    intro b ds _ hmem
    simp at hmem
  | cons ce rest ih =>
    obtain ⟨c0, e0⟩ := ce
    intro b ds hnodup hmem hnd h hv
    simp only [List.map_cons, List.nodup_cons] at hnodup
    rcases List.mem_cons.mp hmem with heq | hmem'
    · rw [Prod.mk.injEq] at heq
      obtain ⟨rfl, rfl⟩ := heq
      simp only [applyUpdates, hnd, Bool.false_eq_true, if_false, hv] at h
      split at h
      · rename_i hlt
        rw [applyUpdates_getElem?_of_not_mem ro i c b' ds' rest _ _ h hnodup.1]
        exact List.getElem?_set_self hlt
      · simp at h
    · simp only [applyUpdates] at h
      split at h
      · exact ih _ _ hnodup.2 hmem' hnd h hv
      · split at h
        · simp at h
        · split at h
          · exact ih _ _ hnodup.2 hmem' hnd h hv
          · simp at h

/-- C2: for every row and update specification with distinct keys, each
non-drop update expression is evaluated against the original grown row
(the pre-image, `grow r (u.map Prod.fst)`) and the row index, and its
result lands at its position in the working buffer — so an update
expression may reference the original value of a position even when the
same update specification also rewrites that position, regardless of the
order of the entries. -/
theorem C2_update_reads_preimage (u : List (Nat × Expr)) (cmax : Option Nat)
    (i : Nat) (r : List Value) (c : Nat) (e : Expr) (v : Value)
    (b' : List Value) (ds' : List Nat)
    (hnodup : (u.map Prod.fst).Nodup)
    (hmem : (c, e) ∈ u) (hnd : isDropMarker e = false)
    (hwb : workingBuffer u cmax i r = Except.ok (b', ds'))
    (hv : eval (grow r (u.map Prod.fst)) i e = Except.ok v) :
    b'[c]? = some v := by
  simp only [workingBuffer] at hwb
  exact applyUpdates_getElem?_of_mem _ i c e v b' ds' u _ [] hnodup hmem hnd hwb hv

/-- Witness for C2: the swap update `{0: column(1), 1: column(0)}` on the
row `[1, 2]` puts the **original** value of column `0` (namely `1`) into
column `1`, even though the same specification rewrites column `0` to `2`
first: the buffer becomes `[2, 1]`. -/
theorem C2_update_reads_preimage_witness :
    workingBuffer [(0, Expr.col 1), (1, Expr.col 0)] none 0
        [Value.int 1, Value.int 2] =
      Except.ok ([Value.int 2, Value.int 1], []) ∧
    ([Value.int 2, Value.int 1] : List Value)[1]? = some (Value.int 1) :=
  ⟨rfl,
    C2_update_reads_preimage [(0, Expr.col 1), (1, Expr.col 0)] none 0
      [Value.int 1, Value.int 2] 1 (Expr.col 0) (Value.int 1)
      [Value.int 2, Value.int 1] [] (by decide)
      (List.mem_cons_of_mem _ (List.mem_cons_self _ _)) rfl rfl rfl⟩

/-- Closed form of `metatable._upd` for the single-column drop update
`{0: drop}` without a filter: the row is grown to length at least one and
position `0` is removed. -/
theorem upd_drop0 (i : Nat) (r : List Value) :
    upd [(0, Expr.dropSym)] none none i r =
      Except.ok [removeDrops [0] (growTo r 0)] := rfl

/-- Closed form of the data-row pass for the update `{0: drop}`. -/
theorem updRowsFrom_drop0 (rows : List (List Value)) :
    ∀ i, updRowsFrom [(0, Expr.dropSym)] none none i rows =
      Except.ok (rows.map (fun r => removeDrops [0] (growTo r 0))) := by
  induction rows with
  | nil => intro i; rfl
  | cons r rs ih =>
    intro i
    simp only [updRowsFrom, upd_drop0, ih (i + 1), List.map_cons]
    rfl

/-- Closed form of `update_filter` for the update `{0: drop}` on any table:
the header row (if any) receives the same growth and drop removal as the
data rows, so every row of the result is its grown original with position
`0` removed. -/
theorem update_filter_drop0 (t : Metatable) :
    update_filter t [(0, Expr.dropSym)] none none false =
      Except.ok (t.iterable.map (fun r => removeDrops [0] (growTo r 0))) := by
  obtain ⟨it, nm, hd⟩ := t
  cases hd <;> cases it <;>
    simp [update_filter, maxKey, updRows, updRowsFrom_drop0, headerTransform,
      grow, List.filter, isDropMarker]

/-- C9: dropping an already-absent column position is a no-op rather than a
failure.  For every table, applying the single-column drop update
`{0: drop}` succeeds (first conjunct), applying it again to the result
succeeds as well (second conjunct), and when every row of the table has
exactly one column the second application yields a table in which every
row is empty (third conjunct). -/
theorem C9_idempotent_redrop (t : Metatable) :
    update_filter t [(0, Expr.dropSym)] none none false =
      Except.ok (t.iterable.map (fun r => removeDrops [0] (growTo r 0))) ∧
    update_filter
        ⟨t.iterable.map (fun r => removeDrops [0] (growTo r 0)), t.name, t.header⟩
        [(0, Expr.dropSym)] none none false =
      Except.ok ((t.iterable.map (fun r => removeDrops [0] (growTo r 0))).map
        (fun r => removeDrops [0] (growTo r 0))) ∧
    ((∀ r ∈ t.iterable, r.length = 1) →
      update_filter
          ⟨t.iterable.map (fun r => removeDrops [0] (growTo r 0)), t.name, t.header⟩
          [(0, Expr.dropSym)] none none false =
        Except.ok (t.iterable.map (fun _ => ([] : List Value)))) := by
  refine ⟨update_filter_drop0 t, update_filter_drop0 _, ?_⟩
  intro h1
  rw [update_filter_drop0 _]
  simp only [Except.ok.injEq, List.map_map]
  apply List.map_congr_left
  intro r hr
  obtain ⟨v, rfl⟩ := List.length_eq_one.mp (h1 r hr)
  rfl

/-- Witness for C9 on the one-column table `[[7]]`: the first drop yields
`[[]]` and the second drop again yields `[[]]` — an all-empty-row table,
not a failure. -/
theorem C9_idempotent_redrop_witness :
    update_filter ⟨[[Value.int 7]], none, false⟩ [(0, Expr.dropSym)]
        none none false = Except.ok [[]] ∧
    update_filter ⟨[([] : List Value)], none, false⟩ [(0, Expr.dropSym)]
        none none false = Except.ok [[]] := by
  have h := C9_idempotent_redrop ⟨[[Value.int 7]], none, false⟩
  exact ⟨h.1, h.2.2 (by decide)⟩

example : eval [Value.int 5, Value.int 6] 0 (Expr.col 1) = Except.ok (Value.int 6) := rfl
example : eval [Value.int 5] 3 Expr.rowSym = Except.ok (Value.int 3) := rfl
example : eval [Value.int 5] 0 (Expr.col 2) = Except.ok Value.none := rfl
example : eval [Value.int 5, Value.int 6] 0 (Expr.col (-1)) = Except.ok (Value.int 6) := rfl
example : eval [Value.int 5, Value.int 6] 0 (Expr.col (-3)) = Except.error indexErrorMsg := rfl
example :
    eval [Value.int 5] 0 (Expr.node (fun vs => vs.getD 0 Value.none) [Expr.dropSym]) =
      Except.ok Value.dropCls := rfl
